import Mathlib

/-!
Verification development for the GF(2^128) helper module (`src/GF128.cpp`).

The module works on 16-byte buffers interpreted as 128-bit field elements.
We embed the portable (non-assembly) code paths shallowly:

* a buffer is a `List Nat` of bytes; reading a byte applies `% 2^8`, since
  C memory holds `uint8_t` values;
* `be32toh`/`le32toh` on a 4-byte word of the buffer are the big-endian and
  little-endian 32-bit loads `word32BE`/`word32LE`;
* `uint32_t` arithmetic is `Nat` arithmetic with `% 2^32` where C overflow
  can occur, `~x` is `x ^^^ 0xFFFFFFFF`;
* `GF128::mulInit` and `GF128::mul` mutate caller memory through pointers,
  so they are embedded as transformers over a byte-addressed memory
  `Mem := Nat → Nat`, with `memcpy` and the external accelerator call
  translated statement by statement.
-/

namespace GF128

/-- Read byte `i` of a buffer; C memory holds `uint8_t`, hence `% 2^8`. -/
def byteAt (v : List Nat) (i : Nat) : Nat := v.getD i 0 % 2^8

/-- Big-endian 32-bit load of four bytes (`be32toh` of a stored word):
the first byte is the most significant. -/
def word32BE (a b c d : Nat) : Nat := (a <<< 24) ||| (b <<< 16) ||| (c <<< 8) ||| d

/-- Little-endian 32-bit load of four bytes (`le32toh` of a stored word):
the first byte is the least significant. -/
def word32LE (a b c d : Nat) : Nat := (d <<< 24) ||| (c <<< 16) ||| (b <<< 8) ||| a

/-- `be32toh(V[i])`: word `i` of the buffer, big-endian. -/
def beW (v : List Nat) (i : Nat) : Nat :=
  word32BE (byteAt v (4*i)) (byteAt v (4*i+1)) (byteAt v (4*i+2)) (byteAt v (4*i+3))

/-- `le32toh(V[i])`: word `i` of the buffer, little-endian. -/
def leW (v : List Nat) (i : Nat) : Nat :=
  word32LE (byteAt v (4*i)) (byteAt v (4*i+1)) (byteAt v (4*i+2)) (byteAt v (4*i+3))

/-- `V[i] = htobe32(w)`: store a 32-bit word as four big-endian bytes. -/
def encBE32 (w : Nat) : List Nat := [(w >>> 24) % 2^8, (w >>> 16) % 2^8, (w >>> 8) % 2^8, w % 2^8]

/-- `V[i] = htole32(w)`: store a 32-bit word as four little-endian bytes. -/
def encLE32 (w : Nat) : List Nat := [w % 2^8, (w >>> 8) % 2^8, (w >>> 16) % 2^8, (w >>> 24) % 2^8]

/-- `mask = ((~(V3 & 0x01)) + 1) & 0xE1000000` (GF128.cpp line 182),
in `uint32_t` arithmetic. -/
def gcmMask (V3 : Nat) : Nat := ((((V3 &&& 1) ^^^ 0xFFFFFFFF) + 1) % 2^32) &&& 0xE1000000

/-- `mask = ((~(V0 >> 31)) + 1) & 0x00000087` (GF128.cpp line 274). -/
def eaxMask (V0 : Nat) : Nat := ((((V0 >>> 31) ^^^ 0xFFFFFFFF) + 1) % 2^32) &&& 0x00000087

/-- `mask = ((~(V3 >> 31)) + 1) & 0x00000087` (GF128.cpp line 365). -/
def xtsMask (V3 : Nat) : Nat := ((((V3 >>> 31) ^^^ 0xFFFFFFFF) + 1) % 2^32) &&& 0x00000087

/-- `GF128::dbl` (GF128.cpp lines 177–191, portable path): big-endian decode,
mask from the low bit of `V3`, 128-bit right shift with carries, mask XORed
into `V0`, big-endian re-encode. -/
def dbl (v : List Nat) : List Nat :=
  let V0 := beW v 0
  let V1 := beW v 1
  let V2 := beW v 2
  let V3 := beW v 3
  let mask := gcmMask V3
  encBE32 ((V0 >>> 1) ^^^ mask) ++
  encBE32 ((V1 >>> 1) ||| ((V0 <<< 31) % 2^32)) ++
  encBE32 ((V2 >>> 1) ||| ((V1 <<< 31) % 2^32)) ++
  encBE32 ((V3 >>> 1) ||| ((V2 <<< 31) % 2^32))

/-- `GF128::dblEAX` (GF128.cpp lines 269–283, portable path): big-endian
decode, mask from the top bit of `V0`, 128-bit left shift with carries, mask
XORed into `V3`, big-endian re-encode. -/
def dblEAX (v : List Nat) : List Nat :=
  let V0 := beW v 0
  let V1 := beW v 1
  let V2 := beW v 2
  let V3 := beW v 3
  let mask := eaxMask V0
  encBE32 (((V0 <<< 1) % 2^32) ||| (V1 >>> 31)) ++
  encBE32 (((V1 <<< 1) % 2^32) ||| (V2 >>> 31)) ++
  encBE32 (((V2 <<< 1) % 2^32) ||| (V3 >>> 31)) ++
  encBE32 (((V3 <<< 1) % 2^32) ^^^ mask)

/-- `GF128::dblXTS` (GF128.cpp lines 360–374, portable path): little-endian
decode, mask from the top bit of `V3`, 128-bit left shift with carries, mask
XORed into `V0`, little-endian re-encode. -/
def dblXTS (v : List Nat) : List Nat :=
  let V0 := leW v 0
  let V1 := leW v 1
  let V2 := leW v 2
  let V3 := leW v 3
  let mask := xtsMask V3
  encLE32 (((V0 <<< 1) % 2^32) ^^^ mask) ++
  encLE32 (((V1 <<< 1) % 2^32) ||| (V0 >>> 31)) ++
  encLE32 (((V2 <<< 1) % 2^32) ||| (V1 >>> 31)) ++
  encLE32 (((V3 <<< 1) % 2^32) ||| (V2 >>> 31))

end GF128

namespace Spec

/-- Modelled from the spec's algorithm description (§4.2, `doubleGCM`):
mask is `0xE1000000` exactly when the least-significant bit of `V3` is 1,
else 0; the right shift moves the vacated low bit of each word into the top
bit of the next word; the mask is XORed into `V0` after the shift; the
result is re-encoded big-endian. -/
def doubleGCM (v : List Nat) : List Nat :=
  let V0 := GF128.beW v 0
  let V1 := GF128.beW v 1
  let V2 := GF128.beW v 2
  let V3 := GF128.beW v 3
  let mask := if V3 &&& 1 = 1 then 0xE1000000 else 0
  GF128.encBE32 ((V0 >>> 1) ^^^ mask) ++
  GF128.encBE32 ((V1 >>> 1) ||| ((V0 &&& 1) <<< 31)) ++
  GF128.encBE32 ((V2 >>> 1) ||| ((V1 &&& 1) <<< 31)) ++
  GF128.encBE32 ((V3 >>> 1) ||| ((V2 &&& 1) <<< 31))

/-- Modelled from the spec's algorithm description (§4.2, `doubleEAX`):
mask is `0x00000087` exactly when the most-significant bit of `V0` is 1,
else 0; the left shift moves the top bit of each word into the vacated low
bit of the previous word; the mask is XORed into `V3` after the shift;
big-endian re-encode. -/
def doubleEAX (v : List Nat) : List Nat :=
  let V0 := GF128.beW v 0
  let V1 := GF128.beW v 1
  let V2 := GF128.beW v 2
  let V3 := GF128.beW v 3
  let mask := if V0 >>> 31 = 1 then 0x00000087 else 0
  GF128.encBE32 (((V0 &&& 0x7FFFFFFF) <<< 1) ||| (V1 >>> 31)) ++
  GF128.encBE32 (((V1 &&& 0x7FFFFFFF) <<< 1) ||| (V2 >>> 31)) ++
  GF128.encBE32 (((V2 &&& 0x7FFFFFFF) <<< 1) ||| (V3 >>> 31)) ++
  GF128.encBE32 (((V3 &&& 0x7FFFFFFF) <<< 1) ^^^ mask)

/-- Modelled from the spec's algorithm description (§4.2, `doubleXTS`):
little-endian decode (word 0 least significant), mask is `0x00000087`
exactly when the most-significant bit of `V3` is 1; left shift across the
words, mask XORed into `V0` after the shift; little-endian re-encode. -/
def doubleXTS (v : List Nat) : List Nat :=
  let V0 := GF128.leW v 0
  let V1 := GF128.leW v 1
  let V2 := GF128.leW v 2
  let V3 := GF128.leW v 3
  let mask := if V3 >>> 31 = 1 then 0x00000087 else 0
  GF128.encLE32 (((V0 &&& 0x7FFFFFFF) <<< 1) ^^^ mask) ++
  GF128.encLE32 (((V1 &&& 0x7FFFFFFF) <<< 1) ||| (V0 >>> 31)) ++
  GF128.encLE32 (((V2 &&& 0x7FFFFFFF) <<< 1) ||| (V1 >>> 31)) ++
  GF128.encLE32 (((V3 &&& 0x7FFFFFFF) <<< 1) ||| (V2 >>> 31))

end Spec

namespace GF128

/-! ### Basic bounds and bit lemmas -/

theorem byteAt_lt (v : List Nat) (i : Nat) : byteAt v i < 2^8 :=
  Nat.mod_lt _ (by norm_num)

theorem word32BE_lt {a b c d : Nat} (ha : a < 2^8) (hb : b < 2^8)
    (hc : c < 2^8) (hd : d < 2^8) : word32BE a b c d < 2^32 := by
  unfold word32BE
  have h24 : a <<< 24 < 2^32 := by
    rw [Nat.shiftLeft_eq]; norm_num at ha ⊢; omega
  have h16 : b <<< 16 < 2^32 := by
    rw [Nat.shiftLeft_eq]; norm_num at hb ⊢; omega
  have h8 : c <<< 8 < 2^32 := by
    rw [Nat.shiftLeft_eq]; norm_num at hc ⊢; omega
  have hd' : d < 2^32 := lt_trans hd (by norm_num)
  exact Nat.or_lt_two_pow (Nat.or_lt_two_pow (Nat.or_lt_two_pow h24 h16) h8) hd'

theorem beW_lt (v : List Nat) (i : Nat) : beW v i < 2^32 :=
  word32BE_lt (byteAt_lt v _) (byteAt_lt v _) (byteAt_lt v _) (byteAt_lt v _)

theorem leW_lt (v : List Nat) (i : Nat) : leW v i < 2^32 :=
  word32BE_lt (byteAt_lt v _) (byteAt_lt v _) (byteAt_lt v _) (byteAt_lt v _)

/-- The carry `(x << 31) % 2^32` of the right-shift routines keeps exactly
the low bit of `x`, moved to bit 31. -/
theorem shl31_mod (x : Nat) : (x <<< 31) % 2^32 = (x &&& 1) <<< 31 := by
  rw [Nat.shiftLeft_eq, Nat.shiftLeft_eq, Nat.and_one_is_mod]
  have : (2:Nat)^32 = 2 * 2^31 := by norm_num
  rw [this, Nat.mul_mod_mul_right]

/-- The truncated left shift `(x << 1) % 2^32` drops exactly the top bit
of a 32-bit word. -/
theorem shl1_mod (x : Nat) : (x <<< 1) % 2^32 = (x &&& 0x7FFFFFFF) <<< 1 := by
  rw [Nat.shiftLeft_eq, Nat.shiftLeft_eq]
  have h1 : (0x7FFFFFFF : Nat) = 2^31 - 1 := by norm_num
  rw [h1, Nat.and_pow_two_sub_one_eq_mod]
  have : (2:Nat)^32 = 2^31 * 2 := by norm_num
  rw [this, Nat.mul_mod_mul_right]

/-- The GCM mask of line 182 is `0xE1000000` exactly when the low bit of
`V3` is set, else 0. -/
theorem gcmMask_eq (x : Nat) :
    gcmMask x = if x &&& 1 = 1 then 0xE1000000 else 0 := by
  unfold gcmMask
  rcases Nat.mod_two_eq_zero_or_one x with h | h <;>
    rw [Nat.and_one_is_mod, h] <;> decide

/-- The EAX mask of line 274 is `0x00000087` exactly when the top bit of
the 32-bit word `V0` is set, else 0. -/
theorem eaxMask_eq (x : Nat) (hx : x < 2^32) :
    eaxMask x = if x >>> 31 = 1 then 0x00000087 else 0 := by
  unfold eaxMask
  have h2 : x >>> 31 < 2 := by
    rw [Nat.shiftRight_eq_div_pow]
    exact Nat.div_lt_of_lt_mul (by norm_num at hx ⊢; omega)
  interval_cases h : x >>> 31 <;> decide

/-- The XTS mask of line 365 is `0x00000087` exactly when the top bit of
the 32-bit word `V3` is set, else 0. -/
theorem xtsMask_eq (x : Nat) (hx : x < 2^32) :
    xtsMask x = if x >>> 31 = 1 then 0x00000087 else 0 := by
  unfold xtsMask
  have h2 : x >>> 31 < 2 := by
    rw [Nat.shiftRight_eq_div_pow]
    exact Nat.div_lt_of_lt_mul (by norm_num at hx ⊢; omega)
  interval_cases h : x >>> 31 <;> decide

end GF128

namespace GF128

/-! ### Claims about the doubling routines -/

/-- C2: `GF128::dbl` decodes the 16-byte buffer big-endian into words
`V0..V3`, computes `mask = (~(V3 & 1) + 1) & 0xE1000000` (which is
`0xE1000000` exactly when the least-significant bit of `V3` is 1, else 0),
shifts the 128-bit value right by one bit across the four words with carry
propagation, XORs the mask into `V0` after the shift, and re-encodes the
result big-endian. -/
theorem dbl_eq_spec (v : List Nat) : dbl v = Spec.doubleGCM v := by
  simp only [dbl, Spec.doubleGCM, gcmMask_eq, shl31_mod]

/-- C3: `GF128::dblEAX` decodes big-endian, computes
`mask = (~(V0 >> 31) + 1) & 0x00000087` (nonzero exactly when the
most-significant bit of `V0` is 1), shifts the 128-bit value left by one
bit across the four words with carry propagation, XORs the mask into `V3`
after the shift, and re-encodes big-endian. -/
theorem dblEAX_eq_spec (v : List Nat) : dblEAX v = Spec.doubleEAX v := by
  simp only [dblEAX, Spec.doubleEAX, shl1_mod, eaxMask_eq _ (beW_lt v 0)]

/-- C4: `GF128::dblXTS` decodes little-endian (word 0 least significant),
computes `mask = (~(V3 >> 31) + 1) & 0x00000087` (nonzero exactly when the
most-significant bit of the 128-bit value is 1), shifts left by one bit
across the four words with carry propagation, XORs the mask into `V0`
(the least-significant word) after the shift, and re-encodes
little-endian. -/
theorem dblXTS_eq_spec (v : List Nat) : dblXTS v = Spec.doubleXTS v := by
  simp only [dblXTS, Spec.doubleXTS, shl1_mod, xtsMask_eq _ (leW_lt v 3)]

/-- C5 counterexample: on the big-endian element `0x80` followed by 15 zero
bytes (only the most-significant bit set), `GF128::dbl` performs a pure
right shift — the dropped bit is the least-significant bit, which is 0, so
the mask does not fire — and returns `0x40` followed by 15 zero bytes, not
`0xE1` followed by 15 zero bytes as the claim states. -/
theorem dbl_top_bit_not_mask :
    ¬ dbl [0x80, 0, 0, 0, 0, 0, 0, 0, 0, 0, 0, 0, 0, 0, 0, 0]
      = [0xE1, 0, 0, 0, 0, 0, 0, 0, 0, 0, 0, 0, 0, 0, 0, 0] := by
  decide

/-- C5 amended: the input whose dropped (least-significant) bit is 1 —
15 zero bytes followed by `0x01` big-endian — makes the mask path of
`GF128::dbl` fire on an all-zero shift result: the output is the top byte
`0xE1` followed by 15 zero bytes.  In addition, the top-bit element
`0x80…00` of the original claim yields the pure shift `0x40…00`. -/
theorem dbl_lsb_fires_mask :
    dbl [0, 0, 0, 0, 0, 0, 0, 0, 0, 0, 0, 0, 0, 0, 0, 0x01]
      = [0xE1, 0, 0, 0, 0, 0, 0, 0, 0, 0, 0, 0, 0, 0, 0, 0] ∧
    dbl [0x80, 0, 0, 0, 0, 0, 0, 0, 0, 0, 0, 0, 0, 0, 0, 0]
      = [0x40, 0, 0, 0, 0, 0, 0, 0, 0, 0, 0, 0, 0, 0, 0, 0] := by
  constructor <;> decide

/-- C8: each of `GF128::dbl`, `GF128::dblEAX` and `GF128::dblXTS` maps the
all-zero 16-byte buffer to the all-zero 16-byte buffer (the mask is 0 for
this input). -/
theorem dbl_zero_all :
    dbl (List.replicate 16 0) = List.replicate 16 0 ∧
    dblEAX (List.replicate 16 0) = List.replicate 16 0 ∧
    dblXTS (List.replicate 16 0) = List.replicate 16 0 := by
  refine ⟨by decide, by decide, by decide⟩

/-- C9: for every input buffer, the reduction mask computed by each routine
is either all-zero or the fixed convention constant: `0xE1000000` for
`GF128::dbl`, `0x00000087` for `GF128::dblEAX` and `GF128::dblXTS`. -/
theorem mask_two_valued (v : List Nat) :
    (gcmMask (beW v 3) = 0 ∨ gcmMask (beW v 3) = 0xE1000000) ∧
    (eaxMask (beW v 0) = 0 ∨ eaxMask (beW v 0) = 0x00000087) ∧
    (xtsMask (leW v 3) = 0 ∨ xtsMask (leW v 3) = 0x00000087) := by
  refine ⟨?_, ?_, ?_⟩
  · rw [gcmMask_eq]
    by_cases h : beW v 3 &&& 1 = 1
    · right; rw [if_pos h]
    · left; rw [if_neg h]
  · rw [eaxMask_eq _ (beW_lt v 0)]
    by_cases h : beW v 0 >>> 31 = 1
    · right; rw [if_pos h]
    · left; rw [if_neg h]
  · rw [xtsMask_eq _ (leW_lt v 3)]
    by_cases h : leW v 3 >>> 31 = 1
    · right; rw [if_pos h]
    · left; rw [if_neg h]

end GF128

namespace GF128

/-- Reverse the 16 bytes of a buffer (byte 0 ↔ byte 15, …): converts
between the big-endian and little-endian encodings of a 128-bit value. -/
def rev16 (v : List Nat) : List Nat :=
  [byteAt v 15, byteAt v 14, byteAt v 13, byteAt v 12, byteAt v 11, byteAt v 10,
   byteAt v 9, byteAt v 8, byteAt v 7, byteAt v 6, byteAt v 5, byteAt v 4,
   byteAt v 3, byteAt v 2, byteAt v 1, byteAt v 0]

theorem mod8_mod8 (x : Nat) : x % 2^8 % 2^8 = x % 2^8 :=
  Nat.mod_mod_of_dvd _ dvd_rfl

/-- The EAX and XTS reduction masks are the same function of the decoded
top word (same two's-complement trick, same constant `0x87`). -/
theorem eaxMask_eq_xtsMask (x : Nat) : eaxMask x = xtsMask x := rfl

theorem beW_rev16_zero (v : List Nat) : beW (rev16 v) 0 = leW v 3 := by
  simp [beW, leW, word32BE, word32LE, rev16, byteAt]

theorem beW_rev16_one (v : List Nat) : beW (rev16 v) 1 = leW v 2 := by
  simp [beW, leW, word32BE, word32LE, rev16, byteAt]

theorem beW_rev16_two (v : List Nat) : beW (rev16 v) 2 = leW v 1 := by
  simp [beW, leW, word32BE, word32LE, rev16, byteAt]

theorem beW_rev16_three (v : List Nat) : beW (rev16 v) 3 = leW v 0 := by
  simp [beW, leW, word32BE, word32LE, rev16, byteAt]

/-- C7: `GF128::dblXTS` on the little-endian encoding of a value computes
the same mathematical operation as `GF128::dblEAX` on the big-endian
(byte-reversed) encoding: reversing the bytes, applying `dblEAX`, and
reversing again gives exactly `dblXTS`.  The two left-shift doubling
conventions agree and differ only in memory layout. -/
theorem dblXTS_eq_rev_dblEAX (v : List Nat) :
    dblXTS v = rev16 (dblEAX (rev16 v)) := by
  simp only [dblEAX, beW_rev16_zero, beW_rev16_one, beW_rev16_two, beW_rev16_three,
    eaxMask_eq_xtsMask]
  simp [dblXTS, rev16, byteAt, encBE32, encLE32, mod8_mod8]

end GF128

namespace GF128

/-! ### XOR-distribution and disjointness lemmas for the linearity claims -/

theorem xor_left_comm (a b c : Nat) : a ^^^ (b ^^^ c) = b ^^^ (a ^^^ c) := by
  rw [← Nat.xor_assoc, Nat.xor_comm a b, Nat.xor_assoc]

theorem shiftRight_xor (x y n : Nat) : (x ^^^ y) >>> n = (x >>> n) ^^^ (y >>> n) := by
  apply Nat.eq_of_testBit_eq
  intro i
  simp

theorem shiftLeft_xor (x y n : Nat) : (x ^^^ y) <<< n = (x <<< n) ^^^ (y <<< n) := by
  apply Nat.eq_of_testBit_eq
  intro i
  simp only [Nat.testBit_shiftLeft, Nat.testBit_xor]
  by_cases h : n ≤ i <;> simp [h]

theorem mod_two_pow_xor (x y n : Nat) : (x ^^^ y) % 2^n = (x % 2^n) ^^^ (y % 2^n) := by
  apply Nat.eq_of_testBit_eq
  intro i
  simp only [Nat.testBit_mod_two_pow, Nat.testBit_xor]
  by_cases h : i < n <;> simp [h]

/-- Bitwise-disjoint operands make `|||` agree with `^^^`. -/
theorem lor_eq_xor {a b : Nat} (h : a &&& b = 0) : a ||| b = a ^^^ b := by
  apply Nat.eq_of_testBit_eq
  intro i
  have hb : (a &&& b).testBit i = false := by rw [h]; exact Nat.zero_testBit i
  rw [Nat.testBit_and] at hb
  rw [Nat.testBit_or, Nat.testBit_xor]
  cases h1 : a.testBit i <;> cases h2 : b.testBit i <;> simp_all

/-- Two shifted byte fields with non-overlapping ranges share no bits. -/
theorem land_shl_shl (x y m n : Nat) (hy : y < 2^8) (h : n + 8 ≤ m) :
    (x <<< m) &&& (y <<< n) = 0 := by
  apply Nat.eq_of_testBit_eq
  intro i
  simp only [Nat.testBit_and, Nat.testBit_shiftLeft, Nat.zero_testBit]
  by_cases hm : m ≤ i
  · have hyb : y.testBit (i - n) = false :=
      Nat.testBit_lt_two_pow
        (lt_of_lt_of_le hy (Nat.pow_le_pow_right (by norm_num) (by omega)))
    simp [hyb]
  · simp [hm]

theorem land_shl_byte (x y m : Nat) (hy : y < 2^8) (h : 8 ≤ m) :
    (x <<< m) &&& y = 0 := by
  have := land_shl_shl x y m 0 hy (by omega)
  rwa [Nat.shiftLeft_zero] at this

/-- In the right-shift routines, the shifted word and the incoming carry
occupy disjoint bits. -/
theorem land_shr1_shl31 (x y : Nat) (hx : x < 2^32) :
    (x >>> 1) &&& ((y <<< 31) % 2^32) = 0 := by
  apply Nat.eq_of_testBit_eq
  intro i
  simp only [Nat.testBit_and, Nat.testBit_shiftRight, Nat.testBit_mod_two_pow,
    Nat.testBit_shiftLeft, Nat.zero_testBit]
  by_cases h31 : 31 ≤ i
  · by_cases h32 : i < 32
    · have hi : i = 31 := by omega
      subst hi
      have hxb : x.testBit (1 + 31) = false := Nat.testBit_lt_two_pow (by norm_num at hx ⊢; omega)
      simp [hxb]
    · simp [h32]
  · simp [h31]

/-- In the left-shift routines, the truncated shifted word and the incoming
carry occupy disjoint bits. -/
theorem land_shl1_shr31 (x y : Nat) (hy : y < 2^32) :
    ((x <<< 1) % 2^32) &&& (y >>> 31) = 0 := by
  apply Nat.eq_of_testBit_eq
  intro i
  simp only [Nat.testBit_and, Nat.testBit_shiftRight, Nat.testBit_mod_two_pow,
    Nat.testBit_shiftLeft, Nat.zero_testBit]
  by_cases h1 : 1 ≤ i
  · have hyb : y.testBit (31 + i) = false :=
      Nat.testBit_lt_two_pow
        (lt_of_lt_of_le hy (Nat.pow_le_pow_right (by norm_num) (by omega)))
    simp [hyb]
  · have hi : i = 0 := by omega
    subst hi
    simp

end GF128

namespace GF128

/-- Byte-wise XOR of two 16-byte buffers. -/
def xor16 (a b : List Nat) : List Nat :=
  [byteAt a 0 ^^^ byteAt b 0, byteAt a 1 ^^^ byteAt b 1,
   byteAt a 2 ^^^ byteAt b 2, byteAt a 3 ^^^ byteAt b 3,
   byteAt a 4 ^^^ byteAt b 4, byteAt a 5 ^^^ byteAt b 5,
   byteAt a 6 ^^^ byteAt b 6, byteAt a 7 ^^^ byteAt b 7,
   byteAt a 8 ^^^ byteAt b 8, byteAt a 9 ^^^ byteAt b 9,
   byteAt a 10 ^^^ byteAt b 10, byteAt a 11 ^^^ byteAt b 11,
   byteAt a 12 ^^^ byteAt b 12, byteAt a 13 ^^^ byteAt b 13,
   byteAt a 14 ^^^ byteAt b 14, byteAt a 15 ^^^ byteAt b 15]

theorem byteAt_xor16 (a b : List Nat) (k : Nat) (h : k < 16) :
    byteAt (xor16 a b) k = byteAt a k ^^^ byteAt b k := by
  interval_cases k <;>
    exact Nat.mod_eq_of_lt (Nat.xor_lt_two_pow (byteAt_lt _ _) (byteAt_lt _ _))

/-- A big-endian word is the XOR of its four disjoint byte fields. -/
theorem word32BE_eq_xor {a b c d : Nat} (hb : b < 2^8) (hc : c < 2^8) (hd : d < 2^8) :
    word32BE a b c d = (a <<< 24) ^^^ ((b <<< 16) ^^^ ((c <<< 8) ^^^ d)) := by
  unfold word32BE
  have d1 : (a <<< 24) &&& (b <<< 16) = 0 := land_shl_shl _ _ _ _ hb (by norm_num)
  have d2 : ((a <<< 24) ^^^ (b <<< 16)) &&& (c <<< 8) = 0 := by
    rw [Nat.and_xor_distrib_right, land_shl_shl _ _ _ _ hc (by norm_num),
      land_shl_shl _ _ _ _ hc (by norm_num), Nat.xor_zero]
  have d3 : (((a <<< 24) ^^^ (b <<< 16)) ^^^ (c <<< 8)) &&& d = 0 := by
    rw [Nat.and_xor_distrib_right, Nat.and_xor_distrib_right,
      land_shl_byte _ _ _ hd (by norm_num), land_shl_byte _ _ _ hd (by norm_num),
      land_shl_byte _ _ _ hd (by norm_num), Nat.xor_zero, Nat.xor_zero]
  rw [lor_eq_xor d1, lor_eq_xor d2, lor_eq_xor d3, Nat.xor_assoc, Nat.xor_assoc]

theorem word32BE_xor {x0 x1 x2 x3 y0 y1 y2 y3 : Nat}
    (hx1 : x1 < 2^8) (hx2 : x2 < 2^8) (hx3 : x3 < 2^8)
    (hy1 : y1 < 2^8) (hy2 : y2 < 2^8) (hy3 : y3 < 2^8) :
    word32BE (x0 ^^^ y0) (x1 ^^^ y1) (x2 ^^^ y2) (x3 ^^^ y3)
      = word32BE x0 x1 x2 x3 ^^^ word32BE y0 y1 y2 y3 := by
  rw [word32BE_eq_xor (Nat.xor_lt_two_pow hx1 hy1) (Nat.xor_lt_two_pow hx2 hy2)
      (Nat.xor_lt_two_pow hx3 hy3),
    word32BE_eq_xor hx1 hx2 hx3, word32BE_eq_xor hy1 hy2 hy3,
    shiftLeft_xor, shiftLeft_xor, shiftLeft_xor]
  simp [Nat.xor_assoc, Nat.xor_comm, xor_left_comm]

theorem beW_xor16_zero (a b : List Nat) : beW (xor16 a b) 0 = beW a 0 ^^^ beW b 0 := by
  unfold beW
  rw [byteAt_xor16 a b (4*0) (by norm_num), byteAt_xor16 a b (4*0+1) (by norm_num),
    byteAt_xor16 a b (4*0+2) (by norm_num), byteAt_xor16 a b (4*0+3) (by norm_num)]
  exact word32BE_xor (byteAt_lt _ _) (byteAt_lt _ _) (byteAt_lt _ _)
    (byteAt_lt _ _) (byteAt_lt _ _) (byteAt_lt _ _)

theorem beW_xor16_one (a b : List Nat) : beW (xor16 a b) 1 = beW a 1 ^^^ beW b 1 := by
  unfold beW
  rw [byteAt_xor16 a b (4*1) (by norm_num), byteAt_xor16 a b (4*1+1) (by norm_num),
    byteAt_xor16 a b (4*1+2) (by norm_num), byteAt_xor16 a b (4*1+3) (by norm_num)]
  exact word32BE_xor (byteAt_lt _ _) (byteAt_lt _ _) (byteAt_lt _ _)
    (byteAt_lt _ _) (byteAt_lt _ _) (byteAt_lt _ _)

theorem beW_xor16_two (a b : List Nat) : beW (xor16 a b) 2 = beW a 2 ^^^ beW b 2 := by
  unfold beW
  rw [byteAt_xor16 a b (4*2) (by norm_num), byteAt_xor16 a b (4*2+1) (by norm_num),
    byteAt_xor16 a b (4*2+2) (by norm_num), byteAt_xor16 a b (4*2+3) (by norm_num)]
  exact word32BE_xor (byteAt_lt _ _) (byteAt_lt _ _) (byteAt_lt _ _)
    (byteAt_lt _ _) (byteAt_lt _ _) (byteAt_lt _ _)

theorem beW_xor16_three (a b : List Nat) : beW (xor16 a b) 3 = beW a 3 ^^^ beW b 3 := by
  unfold beW
  rw [byteAt_xor16 a b (4*3) (by norm_num), byteAt_xor16 a b (4*3+1) (by norm_num),
    byteAt_xor16 a b (4*3+2) (by norm_num), byteAt_xor16 a b (4*3+3) (by norm_num)]
  exact word32BE_xor (byteAt_lt _ _) (byteAt_lt _ _) (byteAt_lt _ _)
    (byteAt_lt _ _) (byteAt_lt _ _) (byteAt_lt _ _)

theorem word32LE_xor {x0 x1 x2 x3 y0 y1 y2 y3 : Nat}
    (hx0 : x0 < 2^8) (hx1 : x1 < 2^8) (hx2 : x2 < 2^8)
    (hy0 : y0 < 2^8) (hy1 : y1 < 2^8) (hy2 : y2 < 2^8) :
    word32LE (x0 ^^^ y0) (x1 ^^^ y1) (x2 ^^^ y2) (x3 ^^^ y3)
      = word32LE x0 x1 x2 x3 ^^^ word32LE y0 y1 y2 y3 :=
  word32BE_xor hx2 hx1 hx0 hy2 hy1 hy0

theorem gcmMask_xor (x y : Nat) : gcmMask (x ^^^ y) = gcmMask x ^^^ gcmMask y := by
  simp only [gcmMask_eq, Nat.and_one_is_mod]
  rcases Nat.mod_two_eq_zero_or_one x with hx | hx <;>
    rcases Nat.mod_two_eq_zero_or_one y with hy | hy <;>
      simp [hx, hy, Nat.xor_mod_two_eq_one] <;> omega

theorem eaxMask_xor (x y : Nat) (hx : x < 2^32) (hy : y < 2^32) :
    eaxMask (x ^^^ y) = eaxMask x ^^^ eaxMask y := by
  rw [eaxMask_eq _ (Nat.xor_lt_two_pow hx hy), eaxMask_eq _ hx, eaxMask_eq _ hy,
    shiftRight_xor]
  have h2x : x >>> 31 < 2 := by
    rw [Nat.shiftRight_eq_div_pow]
    exact Nat.div_lt_of_lt_mul (by norm_num at hx ⊢; omega)
  have h2y : y >>> 31 < 2 := by
    rw [Nat.shiftRight_eq_div_pow]
    exact Nat.div_lt_of_lt_mul (by norm_num at hy ⊢; omega)
  interval_cases hbx : x >>> 31 <;> interval_cases hby : y >>> 31 <;> decide

theorem xtsMask_xor (x y : Nat) (hx : x < 2^32) (hy : y < 2^32) :
    xtsMask (x ^^^ y) = xtsMask x ^^^ xtsMask y := by
  rw [← eaxMask_eq_xtsMask, ← eaxMask_eq_xtsMask, ← eaxMask_eq_xtsMask]
  exact eaxMask_xor x y hx hy

/-- XOR-linearity of one word step of the right-shift routine:
shifted word joined with the incoming carry from the neighbouring word. -/
theorem rpair_xor (A B P Q : Nat) (hA : A < 2^32) (hB : B < 2^32) :
    ((A ^^^ B) >>> 1) ||| (((P ^^^ Q) <<< 31) % 2^32)
      = ((A >>> 1) ||| ((P <<< 31) % 2^32)) ^^^ ((B >>> 1) ||| ((Q <<< 31) % 2^32)) := by
  rw [lor_eq_xor (land_shr1_shl31 _ _ (Nat.xor_lt_two_pow hA hB)),
    lor_eq_xor (land_shr1_shl31 _ _ hA), lor_eq_xor (land_shr1_shl31 _ _ hB),
    shiftRight_xor, shiftLeft_xor, mod_two_pow_xor]
  simp [Nat.xor_assoc, Nat.xor_comm, xor_left_comm]

/-- XOR-linearity of one word step of the left-shift routines:
truncated shifted word joined with the incoming carry. -/
theorem lpair_xor (A B P Q : Nat) (hP : P < 2^32) (hQ : Q < 2^32) :
    (((A ^^^ B) <<< 1) % 2^32) ||| ((P ^^^ Q) >>> 31)
      = (((A <<< 1) % 2^32) ||| (P >>> 31)) ^^^ (((B <<< 1) % 2^32) ||| (Q >>> 31)) := by
  rw [lor_eq_xor (land_shl1_shr31 _ _ (Nat.xor_lt_two_pow hP hQ)),
    lor_eq_xor (land_shl1_shr31 _ _ hP), lor_eq_xor (land_shl1_shr31 _ _ hQ),
    shiftRight_xor, shiftLeft_xor, mod_two_pow_xor]
  simp [Nat.xor_assoc, Nat.xor_comm, xor_left_comm]

theorem leW_xor16_zero (a b : List Nat) : leW (xor16 a b) 0 = leW a 0 ^^^ leW b 0 := by
  unfold leW
  rw [byteAt_xor16 a b (4*0) (by norm_num), byteAt_xor16 a b (4*0+1) (by norm_num),
    byteAt_xor16 a b (4*0+2) (by norm_num), byteAt_xor16 a b (4*0+3) (by norm_num)]
  exact word32LE_xor (byteAt_lt _ _) (byteAt_lt _ _) (byteAt_lt _ _)
    (byteAt_lt _ _) (byteAt_lt _ _) (byteAt_lt _ _)

theorem leW_xor16_one (a b : List Nat) : leW (xor16 a b) 1 = leW a 1 ^^^ leW b 1 := by
  unfold leW
  rw [byteAt_xor16 a b (4*1) (by norm_num), byteAt_xor16 a b (4*1+1) (by norm_num),
    byteAt_xor16 a b (4*1+2) (by norm_num), byteAt_xor16 a b (4*1+3) (by norm_num)]
  exact word32LE_xor (byteAt_lt _ _) (byteAt_lt _ _) (byteAt_lt _ _)
    (byteAt_lt _ _) (byteAt_lt _ _) (byteAt_lt _ _)

theorem leW_xor16_two (a b : List Nat) : leW (xor16 a b) 2 = leW a 2 ^^^ leW b 2 := by
  unfold leW
  rw [byteAt_xor16 a b (4*2) (by norm_num), byteAt_xor16 a b (4*2+1) (by norm_num),
    byteAt_xor16 a b (4*2+2) (by norm_num), byteAt_xor16 a b (4*2+3) (by norm_num)]
  exact word32LE_xor (byteAt_lt _ _) (byteAt_lt _ _) (byteAt_lt _ _)
    (byteAt_lt _ _) (byteAt_lt _ _) (byteAt_lt _ _)

theorem leW_xor16_three (a b : List Nat) : leW (xor16 a b) 3 = leW a 3 ^^^ leW b 3 := by
  unfold leW
  rw [byteAt_xor16 a b (4*3) (by norm_num), byteAt_xor16 a b (4*3+1) (by norm_num),
    byteAt_xor16 a b (4*3+2) (by norm_num), byteAt_xor16 a b (4*3+3) (by norm_num)]
  exact word32LE_xor (byteAt_lt _ _) (byteAt_lt _ _) (byteAt_lt _ _)
    (byteAt_lt _ _) (byteAt_lt _ _) (byteAt_lt _ _)

theorem mod256_xor (x y : Nat) : (x ^^^ y) % 256 = x % 256 ^^^ y % 256 := by
  have h := mod_two_pow_xor x y 8
  norm_num at h
  exact h

theorem dblLinear (a b : List Nat) : dbl (xor16 a b) = xor16 (dbl a) (dbl b) := by
  have w0 : ((beW a 0 ^^^ beW b 0) >>> 1) ^^^ gcmMask (beW a 3 ^^^ beW b 3)
      = ((beW a 0 >>> 1) ^^^ gcmMask (beW a 3))
        ^^^ ((beW b 0 >>> 1) ^^^ gcmMask (beW b 3)) := by
    rw [shiftRight_xor, gcmMask_xor]
    simp [Nat.xor_assoc, Nat.xor_comm, xor_left_comm]
  have w1 := rpair_xor (beW a 1) (beW b 1) (beW a 0) (beW b 0) (beW_lt a 1) (beW_lt b 1)
  have w2 := rpair_xor (beW a 2) (beW b 2) (beW a 1) (beW b 1) (beW_lt a 2) (beW_lt b 2)
  have w3 := rpair_xor (beW a 3) (beW b 3) (beW a 2) (beW b 2) (beW_lt a 3) (beW_lt b 3)
  simp only [dbl, beW_xor16_zero, beW_xor16_one, beW_xor16_two, beW_xor16_three,
    w0, w1, w2, w3]
  simp [xor16, byteAt, encBE32, shiftRight_xor, mod_two_pow_xor, mod256_xor, mod8_mod8]

theorem dblEAXLinear (a b : List Nat) : dblEAX (xor16 a b) = xor16 (dblEAX a) (dblEAX b) := by
  have w0 := lpair_xor (beW a 0) (beW b 0) (beW a 1) (beW b 1) (beW_lt a 1) (beW_lt b 1)
  have w1 := lpair_xor (beW a 1) (beW b 1) (beW a 2) (beW b 2) (beW_lt a 2) (beW_lt b 2)
  have w2 := lpair_xor (beW a 2) (beW b 2) (beW a 3) (beW b 3) (beW_lt a 3) (beW_lt b 3)
  have w3 : (((beW a 3 ^^^ beW b 3) <<< 1) % 2^32) ^^^ eaxMask (beW a 0 ^^^ beW b 0)
      = (((beW a 3 <<< 1) % 2^32) ^^^ eaxMask (beW a 0))
        ^^^ (((beW b 3 <<< 1) % 2^32) ^^^ eaxMask (beW b 0)) := by
    rw [shiftLeft_xor, mod_two_pow_xor, eaxMask_xor _ _ (beW_lt a 0) (beW_lt b 0)]
    simp [Nat.xor_assoc, Nat.xor_comm, xor_left_comm]
  simp only [dblEAX, beW_xor16_zero, beW_xor16_one, beW_xor16_two, beW_xor16_three,
    w0, w1, w2, w3]
  simp [xor16, byteAt, encBE32, shiftRight_xor, mod_two_pow_xor, mod256_xor, mod8_mod8]

theorem dblXTSLinear (a b : List Nat) : dblXTS (xor16 a b) = xor16 (dblXTS a) (dblXTS b) := by
  have w0 : (((leW a 0 ^^^ leW b 0) <<< 1) % 2^32) ^^^ xtsMask (leW a 3 ^^^ leW b 3)
      = (((leW a 0 <<< 1) % 2^32) ^^^ xtsMask (leW a 3))
        ^^^ (((leW b 0 <<< 1) % 2^32) ^^^ xtsMask (leW b 3)) := by
    rw [shiftLeft_xor, mod_two_pow_xor, xtsMask_xor _ _ (leW_lt a 3) (leW_lt b 3)]
    simp [Nat.xor_assoc, Nat.xor_comm, xor_left_comm]
  have w1 := lpair_xor (leW a 1) (leW b 1) (leW a 0) (leW b 0) (leW_lt a 0) (leW_lt b 0)
  have w2 := lpair_xor (leW a 2) (leW b 2) (leW a 1) (leW b 1) (leW_lt a 1) (leW_lt b 1)
  have w3 := lpair_xor (leW a 3) (leW b 3) (leW a 2) (leW b 2) (leW_lt a 2) (leW_lt b 2)
  simp only [dblXTS, leW_xor16_zero, leW_xor16_one, leW_xor16_two, leW_xor16_three,
    w0, w1, w2, w3]
  simp [xor16, byteAt, encLE32, shiftRight_xor, mod_two_pow_xor, mod256_xor, mod8_mod8]

/-- C6: each of `GF128::dbl`, `GF128::dblEAX` and `GF128::dblXTS` is linear
over GF(2): doubling the byte-wise XOR of two 16-byte buffers equals the
byte-wise XOR of the doubled buffers. -/
theorem double_linear_all :
    (∀ a b : List Nat, dbl (xor16 a b) = xor16 (dbl a) (dbl b)) ∧
    (∀ a b : List Nat, dblEAX (xor16 a b) = xor16 (dblEAX a) (dblEAX b)) ∧
    (∀ a b : List Nat, dblXTS (xor16 a b) = xor16 (dblXTS a) (dblXTS b)) :=
  ⟨dblLinear, dblEAXLinear, dblXTSLinear⟩

end GF128

namespace GF128

/-! ### Memory model for `GF128::mulInit` and `GF128::mul`

These two functions mutate caller memory through pointers, so they are
embedded over a byte-addressed memory. -/

/-- Byte-addressed memory. -/
def Mem : Type := Nat → Nat

/-- `memcpy(dst, src, n)`: addresses in `[dst, dst+n)` take the bytes at
`src + offset`; all other addresses are untouched. -/
def memcpy (m : Mem) (dst src n : Nat) : Mem :=
  fun a => if dst ≤ a ∧ a < dst + n then m (src + (a - dst)) else m a

/-- `H[i] = be32toh(H[i])` on a little-endian host: the four bytes of the
word at `p` are reversed in place. -/
def bswap4 (m : Mem) (p : Nat) : Mem :=
  fun a => if p ≤ a ∧ a < p + 4 then m (p + (3 - (a - p))) else m a

/-- Read `n` bytes starting at `p` (memory holds `uint8_t` values). -/
def readBytes (m : Mem) (p n : Nat) : List Nat :=
  (List.range n).map (fun i => m (p + i) % 2^8)

/-- The external accelerator call writes its 16-byte output buffer. -/
def writeBytes16 (m : Mem) (p : Nat) (xs : List Nat) : Mem :=
  fun a => if p ≤ a ∧ a < p + 16 then xs.getD (a - p) 0 else m a

/-- `GF128::mulInit` (GF128.cpp lines 59–75, non-AVR little-endian host
path): `memcpy(H, key, 16)` followed by `H[i] = be32toh(H[i])` for each of
the four words, i.e. an in-place byte swap of each word of `H`. -/
def mulInit (m : Mem) (H key : Nat) : Mem :=
  let m1 := memcpy m H key 16
  bswap4 (bswap4 (bswap4 (bswap4 m1 H) (H+4)) (H+8)) (H+12)

/-- `GF128::mul` (GF128.cpp lines 91–103): copy `H` into the local `h`,
copy `Y` into the local `input`, let the external accelerator
(`ECCX08.aesMultiply(0, input, h, result)`, modelled by the function
`accel`) write its product into the local `result`, and finally
`memcpy(result, Y, 16)` — which copies `Y` *into* `result`, leaving the
caller's `Y` buffer untouched and discarding the accelerator output. -/
def mul (accel : List Nat → List Nat → List Nat) (m : Mem)
    (Y H h input result : Nat) : Mem :=
  let m1 := memcpy m h H 16
  let m2 := memcpy m1 input Y 16
  let m3 := writeBytes16 m2 result (accel (readBytes m2 input 16) (readBytes m2 h 16))
  memcpy m3 result Y 16

theorem memcpy_outside (m : Mem) (dst src n a : Nat)
    (hc : ¬(dst ≤ a ∧ a < dst + n)) : memcpy m dst src n a = m a := by
  unfold memcpy
  exact if_neg hc

theorem bswap4_outside (m : Mem) (p a : Nat)
    (hc : ¬(p ≤ a ∧ a < p + 4)) : bswap4 m p a = m a := by
  unfold bswap4
  exact if_neg hc

theorem writeBytes16_outside (m : Mem) (p : Nat) (xs : List Nat) (a : Nat)
    (hc : ¬(p ≤ a ∧ a < p + 16)) : writeBytes16 m p xs a = m a := by
  unfold writeBytes16
  exact if_neg hc

/-- C10: `GF128::mulInit` never writes the bytes of its `key` argument, and
`GF128::mul` never writes the 16 bytes of its multiplier-state argument
`H`, provided the written buffers (`H` for `mulInit`; the function-local
`h`, `input`, `result` for `mul`) do not overlap the input buffer. -/
theorem mulInit_mul_inputs_unchanged :
    (∀ (m : Mem) (H key a : Nat), (H + 16 ≤ key ∨ key + 16 ≤ H) →
      key ≤ a → a < key + 16 → mulInit m H key a = m a) ∧
    (∀ (accel : List Nat → List Nat → List Nat) (m : Mem)
      (Y H h input result a : Nat),
      (h + 16 ≤ H ∨ H + 16 ≤ h) → (input + 16 ≤ H ∨ H + 16 ≤ input) →
      (result + 16 ≤ H ∨ H + 16 ≤ result) →
      H ≤ a → a < H + 16 → mul accel m Y H h input result a = m a) := by
  constructor
  · intro m H key a hd ha1 ha2
    have c12 : ¬(H + 12 ≤ a ∧ a < H + 12 + 4) := by omega
    have c8 : ¬(H + 8 ≤ a ∧ a < H + 8 + 4) := by omega
    have c4 : ¬(H + 4 ≤ a ∧ a < H + 4 + 4) := by omega
    have c0 : ¬(H ≤ a ∧ a < H + 4) := by omega
    have cm : ¬(H ≤ a ∧ a < H + 16) := by omega
    show bswap4 _ (H+12) a = m a
    rw [bswap4_outside _ _ _ c12, bswap4_outside _ _ _ c8,
      bswap4_outside _ _ _ c4, bswap4_outside _ _ _ c0,
      memcpy_outside _ _ _ _ _ cm]
  · intro accel m Y H h input result a hd1 hd2 hd3 ha1 ha2
    have cr : ¬(result ≤ a ∧ a < result + 16) := by omega
    have ci : ¬(input ≤ a ∧ a < input + 16) := by omega
    have ch : ¬(h ≤ a ∧ a < h + 16) := by omega
    show memcpy _ result Y 16 a = m a
    rw [memcpy_outside _ _ _ _ _ cr, writeBytes16_outside _ _ _ _ cr,
      memcpy_outside _ _ _ _ _ ci, memcpy_outside _ _ _ _ _ ch]

/-- Witness for C10 at concrete addresses and memory. -/
theorem mulInit_mul_inputs_unchanged_witness :
    mulInit (fun a => a) 0 32 35 = 35 ∧
    mul (fun _x _y => List.replicate 16 7) (fun a => a) 80 16 32 48 64 20 = 20 :=
  ⟨mulInit_mul_inputs_unchanged.1 (fun a => a) 0 32 35 (Or.inl (by decide))
      (by decide) (by decide),
    mulInit_mul_inputs_unchanged.2 (fun _x _y => List.replicate 16 7) (fun a => a)
      80 16 32 48 64 20 (Or.inr (by decide)) (Or.inr (by decide))
      (Or.inr (by decide)) (by decide) (by decide)⟩

/-- C1 is a code bug: at a concrete failing input — all memory bytes 1, key
at 80, `H` at 16 initialised by `mulInit`, `Y` at 0, locals at 32/48/64, and
an accelerator whose product is sixteen `2` bytes — `GF128::mul` leaves the
accumulator `Y` equal to its pre-call value (sixteen `1` bytes) instead of
the accelerator's product: the final `memcpy(result, Y, 16)` copies `Y`
into the local `result` buffer and discards the product. -/
theorem mul_discards_accelerator_result :
    readBytes
        (mul (fun _x _y => List.replicate 16 2) (mulInit (fun _a => 1) 16 80)
          0 16 32 48 64) 0 16
      = List.replicate 16 1 ∧
    List.replicate 16 1 ≠ List.replicate (16:Nat) 2 := by
  constructor
  · decide
  · decide

end GF128
